import Mathlib

/-!
Verification of the `node-config` synchronization engine (`src/index.js`,
watch-enabled variant): a persistent key-value configuration store backed by
a single JSON file, with a debounced write-back scheduler, a content
fingerprint that suppresses redundant writes, and a watch/reconcile loop
for changes made by other processes.

The development shallowly embeds the JavaScript source:
- JavaScript values that can live in the store are modelled by `JsValue`
  (JSON values plus `undefined` for `undefined`, `fn` for functions
  inherited from `Object.prototype`, and `protoObj` for the
  `Object.prototype` object delivered by an inherited `__proto__` read;
  numbers are modelled as integers). Property reads and writes on plain
  objects follow the prototype chain, including the `__proto__` accessor,
  whose setter never creates an own property.
- `JSON.stringify` / `JSON.parse` are modelled by `jsonStringify` /
  `parseJSON` (an executable printer and a fueled recursive-descent reader).
- The mutable `Config` instance becomes the record `ConfigState`; each
  prototype method becomes a pure function from the state and the outcome
  of its backend callback (read result, write success) to the new state,
  the value handed to the caller, and the list of emitted events.
- The md5 fingerprint is modelled as the identity on byte strings: the only
  property the engine relies on is that two digests are equal exactly when
  the hashed contents are byte-identical.
-/

namespace NodeConfig

/-- JavaScript values reachable inside the store: JSON values, `undefined`,
function values inherited from `Object.prototype`, and the
`Object.prototype` object itself (the result of an inherited `__proto__`
read). -/
inductive JsValue where
  | undefined : JsValue
  | null : JsValue
  | bool : Bool → JsValue
  | num : Int → JsValue
  | str : String → JsValue
  | arr : List JsValue → JsValue
  | obj : List (String × JsValue) → JsValue
  | fn : String → JsValue
  | protoObj : JsValue
deriving Repr, Inhabited

/-- Test `v === undefined`. -/
def JsValue.isUndefined : JsValue → Bool
  | .undefined => true
  | _ => false

/-- Function-valued members of `Object.prototype`. -/
def protoFns : List String :=
  ["constructor", "hasOwnProperty", "isPrototypeOf", "propertyIsEnumerable",
   "toLocaleString", "toString", "valueOf",
   "__defineGetter__", "__defineSetter__", "__lookupGetter__", "__lookupSetter__"]

/-- Result of a property read that reaches the `Object.prototype`
fallback: `__proto__` reads back the prototype object itself, the function
members read the inherited function, anything else is `undefined`. -/
def protoLookup (k : String) : JsValue :=
  if k = "__proto__" then .protoObj
  else if protoFns.contains k then .fn k
  else .undefined

/-- First binding of `k` among the own properties of an object literal. -/
def lookupOwn : List (String × JsValue) → String → Option JsValue
  | [], _ => none
  | (k', v) :: fs, k => if k' = k then some v else lookupOwn fs k

/-- `Object.prototype.hasOwnProperty.call(v, k)`: own-property test. -/
def JsValue.hasOwn : JsValue → String → Bool
  | .obj fs, k => (lookupOwn fs k).isSome
  | _, _ => false

/-- Property read `v[k]`: own property first, then the `Object.prototype`
fallback, then `undefined`. -/
def JsValue.getProp : JsValue → String → JsValue
  | .obj fs, k =>
    match lookupOwn fs k with
    | some v => v
    | none => protoLookup k
  | _, k => protoLookup k

/-- Own-property write on an object literal's field list: overwrite in place
when the key exists, append otherwise (JavaScript keeps the original
insertion position on overwrite). -/
def updateOwn : List (String × JsValue) → String → JsValue → List (String × JsValue)
  | [], k, v => [(k, v)]
  | (k', v') :: fs, k, v =>
    if k' = k then (k, v) :: fs else (k', v') :: updateOwn fs k v

/-- Property assignment `v[k] = x`. On a plain object, assignment to
`__proto__` is intercepted by the inherited `Object.prototype` accessor
and never creates an own property; an own `__proto__` data property —
which `JSON.parse` can create, since it defines own properties without
consulting setters — shadows the accessor and is updated like any other
key. (For object or null values the accessor re-points the prototype,
which changes only inherited lookups — no own, serialized data — and is
not tracked.) Every other key becomes or overwrites an own property.
Assignment to a non-object primitive is a silent no-op (non-strict
mode). -/
def JsValue.setProp : JsValue → String → JsValue → JsValue
  | .obj fs, k, v =>
    if k = "__proto__" ∧ (lookupOwn fs k).isNone then .obj fs
    else .obj (updateOwn fs k v)
  | o, _, _ => o

/-- Own-property removal from a field list. -/
def removeOwn : List (String × JsValue) → String → List (String × JsValue)
  | [], _ => []
  | (k', v') :: fs, k => if k' = k then fs else (k', v') :: removeOwn fs k

/-- `delete v[k]`; deleting from a non-object is a no-op. -/
def JsValue.delProp : JsValue → String → JsValue
  | .obj fs, k => .obj (removeOwn fs k)
  | o, _ => o

/-- One hexadecimal digit. -/
def hexDigit (n : Nat) : String :=
  if n < 10 then String.singleton (Char.ofNat (48 + n))
  else String.singleton (Char.ofNat (97 + (n - 10)))

/-- JSON string escaping of one character, as produced by `JSON.stringify`. -/
def escapeChar (c : Char) : String :=
  if c = '"' then "\\\""
  else if c = '\\' then "\\\\"
  else if c = '\n' then "\\n"
  else if c = '\t' then "\\t"
  else if c = '\r' then "\\r"
  else if c.toNat = 8 then "\\b"
  else if c.toNat = 12 then "\\f"
  else if c.toNat < 32 then
    "\\u00" ++ hexDigit (c.toNat / 16) ++ hexDigit (c.toNat % 16)
  else String.singleton c

/-- A JSON string literal for `s`, quotes included. -/
def quoteStr (s : String) : String :=
  "\"" ++ String.join (s.data.map escapeChar) ++ "\""

mutual

/-- `JSON.stringify`: `none` models the JavaScript result `undefined`
(top-level `undefined` or function value). -/
def jsonStringify : JsValue → Option String
  | .undefined => none
  | .fn _ => none
  | .protoObj => some "\x7b\x7d"
  | .null => some "null"
  | .bool true => some "true"
  | .bool false => some "false"
  | .num n => some (toString n)
  | .str s => some (quoteStr s)
  | .arr xs => some ("[" ++ String.intercalate "," (stringifyItems xs) ++ "]")
  | .obj fs => some ("\x7b" ++ String.intercalate "," (stringifyFields fs) ++ "\x7d")

/-- Array elements: `undefined` and functions print as `null`. -/
def stringifyItems : List JsValue → List String
  | [] => []
  | x :: xs =>
    (match jsonStringify x with
     | some s => s
     | none => "null") :: stringifyItems xs

/-- Object fields: entries whose value prints as `undefined` are dropped. -/
def stringifyFields : List (String × JsValue) → List String
  | [] => []
  | (k, v) :: fs =>
    match jsonStringify v with
    | some s => (quoteStr k ++ ":" ++ s) :: stringifyFields fs
    | none => stringifyFields fs

end

/-- The byte string handed to `writeFile`/`md5` after `JSON.stringify`; the
top-level `undefined` edge (never reached from `Config`'s own call sites,
whose data is an object) coerces to the string form used by JavaScript. -/
def jsonStringifyTop (v : JsValue) : String :=
  (jsonStringify v).getD "undefined"

/-- Content digest. The `md5` collaborator's only assumed property is that
digests agree exactly when the hashed contents are byte-identical, so the
digest is modelled as the content itself. -/
def md5 (s : String) : String := s

/-- JSON whitespace. -/
def isWs (c : Char) : Bool :=
  c = ' ' ∨ c = '\n' ∨ c = '\t' ∨ c = '\r'

/-- Drop leading JSON whitespace. -/
def skipWs : List Char → List Char
  | [] => []
  | c :: cs => if isWs c then skipWs cs else c :: cs

/-- Value of one hexadecimal digit. -/
def hexVal (c : Char) : Option Nat :=
  if '0' ≤ c ∧ c ≤ '9' then some (c.toNat - 48)
  else if 'a' ≤ c ∧ c ≤ 'f' then some (c.toNat - 87)
  else if 'A' ≤ c ∧ c ≤ 'F' then some (c.toNat - 55)
  else none

/-- A `\uXXXX` escape body: four hexadecimal digits. -/
def parse4hex : List Char → Option (String × List Char)
  | a :: b :: c :: d :: rest =>
    match hexVal a, hexVal b, hexVal c, hexVal d with
    | some x, some y, some z, some w =>
      some (String.singleton (Char.ofNat (((x * 16 + y) * 16 + z) * 16 + w)), rest)
    | _, _, _, _ => none
  | _ => none

/-- Body of a JSON string literal (opening quote already consumed), fueled
by the input length. -/
def parseStrBody : Nat → List Char → Option (String × List Char)
  | 0, _ => none
  | _ + 1, [] => none
  | fuel + 1, c :: cs =>
    if c = '"' then some ("", cs)
    else if c = '\\' then
      match cs with
      | [] => none
      | e :: cs' =>
        let dec :=
          if e = '"' then some ("\"", cs')
          else if e = '\\' then some ("\\", cs')
          else if e = '/' then some ("/", cs')
          else if e = 'n' then some ("\n", cs')
          else if e = 't' then some ("\t", cs')
          else if e = 'r' then some ("\r", cs')
          else if e = 'b' then some ("\x08", cs')
          else if e = 'f' then some ("\x0c", cs')
          else if e = 'u' then parse4hex cs'
          else none
        match dec with
        | none => none
        | some (d, cs'') =>
          match parseStrBody fuel cs'' with
          | some (s, rest) => some (d ++ s, rest)
          | none => none
    else
      match parseStrBody fuel cs with
      | some (s, rest) => some (String.singleton c ++ s, rest)
      | none => none

/-- Digit list to its decimal value. -/
def digitsToNat (ds : List Char) : Nat :=
  ds.foldl (fun a c => a * 10 + (c.toNat - 48)) 0

/-- A JSON integer literal (fractional and exponent forms are outside the
model, which restricts JSON numbers to integers). -/
def parseNum (cs : List Char) : Option (JsValue × List Char) :=
  let (neg, cs₁) :=
    match cs with
    | '-' :: r => (true, r)
    | _ => (false, cs)
  let ds := cs₁.takeWhile Char.isDigit
  let rest := cs₁.dropWhile Char.isDigit
  if ds = [] then none
  else if 1 < ds.length ∧ ds.head? = some '0' then none
  else
    let n : Int := Int.ofNat (digitsToNat ds)
    some (.num (if neg then -n else n), rest)

mutual

/-- A JSON value, fueled recursive descent. -/
def parseVal : Nat → List Char → Option (JsValue × List Char)
  | 0, _ => none
  | fuel + 1, cs =>
    match skipWs cs with
    | [] => none
    | c :: cs' =>
      if c = 'n' then
        match cs' with
        | 'u' :: 'l' :: 'l' :: rest => some (.null, rest)
        | _ => none
      else if c = 't' then
        match cs' with
        | 'r' :: 'u' :: 'e' :: rest => some (.bool true, rest)
        | _ => none
      else if c = 'f' then
        match cs' with
        | 'a' :: 'l' :: 's' :: 'e' :: rest => some (.bool false, rest)
        | _ => none
      else if c = '"' then
        match parseStrBody (cs'.length + 1) cs' with
        | some (s, rest) => some (.str s, rest)
        | none => none
      else if c = '[' then
        match skipWs cs' with
        | ']' :: rest => some (.arr [], rest)
        | _ =>
          match parseArrItems fuel cs' with
          | some (vs, rest) => some (.arr vs, rest)
          | none => none
      else if c = '\x7b' then
        match skipWs cs' with
        | '\x7d' :: rest => some (.obj [], rest)
        | _ =>
          match parseObjItems fuel cs' with
          | some (ps, rest) =>
            some (.obj (ps.foldl (fun a p => updateOwn a p.1 p.2) []), rest)
          | none => none
      else if c = '-' ∨ c.isDigit then parseNum (c :: cs')
      else none

/-- Comma-separated array elements up to the closing bracket. -/
def parseArrItems : Nat → List Char → Option (List JsValue × List Char)
  | 0, _ => none
  | fuel + 1, cs =>
    match parseVal fuel cs with
    | none => none
    | some (v, rest) =>
      match skipWs rest with
      | ',' :: rest' =>
        match parseArrItems fuel rest' with
        | some (vs, rest'') => some (v :: vs, rest'')
        | none => none
      | ']' :: rest' => some ([v], rest')
      | _ => none

/-- Comma-separated `"key": value` pairs up to the closing brace. -/
def parseObjItems : Nat → List Char → Option (List (String × JsValue) × List Char)
  | 0, _ => none
  | fuel + 1, cs =>
    match skipWs cs with
    | '"' :: cs' =>
      match parseStrBody (cs'.length + 1) cs' with
      | none => none
      | some (k, rest) =>
        match skipWs rest with
        | ':' :: rest' =>
          match parseVal fuel rest' with
          | none => none
          | some (v, rest'') =>
            match skipWs rest'' with
            | ',' :: rest₃ =>
              match parseObjItems fuel rest₃ with
              | some (ps, rest₄) => some ((k, v) :: ps, rest₄)
              | none => none
            | '\x7d' :: rest₃ => some ([(k, v)], rest₃)
            | _ => none
        | _ => none
    | _ => none

end

/-- `JSON.parse` wrapped by the source's `parseJSON`: the parsed value on
success, `null` (modelled as `none`) when the text is not a single JSON
value. -/
def parseJSON (s : String) : Option JsValue :=
  match parseVal (2 * s.length + 4) s.data with
  | some (v, rest) => if skipWs rest = [] then some v else none
  | none => none

/-- The mutable fields of a `Config` instance (watch-enabled variant of
`src/index.js`), plus `watchActive`, which records whether `this._watch`
currently holds an open `fs.watch` subscription. `_timeout` records whether
a debounce timer is pending, and `_md5` is the last-known digest (`none`
models the initial `null`). -/
structure ConfigState where
  filename : String
  timeout : Nat
  watch : Bool
  changed : Bool
  _data : JsValue
  _md5 : Option String
  _timeout : Bool
  watchActive : Bool
deriving Repr

/-- The `Config` constructor: `changed = false`, default data `{}`, no
digest, no pending timer; `_watchDirectory()` runs at once when the `watch`
option is set. -/
def mkConfig (filename : String) (timeout : Nat) (watch : Bool) : ConfigState :=
  { filename := filename
    timeout := timeout
    watch := watch
    changed := false
    _data := .obj []
    _md5 := none
    _timeout := false
    watchActive := watch }

/-- `Config.prototype.get(key, defaultValue)`: own-property test via
`hasOwnProperty`, then the stored value, else the default. -/
def get (st : ConfigState) (key : String) (defaultValue : JsValue) : JsValue :=
  if st._data.hasOwn key then st._data.getProp key else defaultValue

/-- `Config.prototype.set(key, value)`: no-op when `key === undefined`
(modelled by `none`); otherwise record the previous property value, assign,
mark changed, and re-arm the debounce timer (`this.timeout`, being
`options.timeout || 0`, is never `undefined`, so `_waitPersist` always
runs). Returns the new state and the value returned to the caller. -/
def set (st : ConfigState) (key : Option String) (value : JsValue) :
    ConfigState × JsValue :=
  match key with
  | none => (st, .undefined)
  | some k =>
    let oldValue := st._data.getProp k
    ({ st with _data := st._data.setProp k value, changed := true, _timeout := true },
     oldValue)

/-- `Config.prototype.delete` (alias `del`/`remove`): no-op when
`key === undefined`; otherwise record the property value, delete the own
property, mark changed, re-arm the debounce timer. -/
def del (st : ConfigState) (key : Option String) : ConfigState × JsValue :=
  match key with
  | none => (st, .undefined)
  | some k =>
    let value := st._data.getProp k
    ({ st with _data := st._data.delProp k, changed := true, _timeout := true },
     value)

/-- `Config.prototype.replace(newData)`: no-op when
`newData === undefined`; otherwise swap the data wholesale, mark changed,
re-arm the debounce timer, and return the old data. -/
def replace (st : ConfigState) (newData : JsValue) : ConfigState × JsValue :=
  if newData.isUndefined then (st, .undefined)
  else ({ st with _data := newData, changed := true, _timeout := true }, st._data)

/-- Result of `_persistToDisk`: the new state, the error handed to the
callback, and whether a backend write was attempted. -/
structure FlushResult where
  st : ConfigState
  err : Option String
  wrote : Bool
deriving Repr

/-- `Config.prototype._persistToDisk(callback)`, parametrised by the
outcome `writeOk` of the backend `writeFile` (consulted only when a write
is issued). Clears the pending timer; returns immediately when not
`changed`; skips the write when the digest of the serialized data equals
the last-known digest; otherwise closes the watch (when the `watch` option
is set), writes, on success clears `changed` and stores the new digest,
and re-opens the watch (when the `watch` option is set) whether or not the
write succeeded. -/
def persistToDisk (st : ConfigState) (writeOk : Bool) : FlushResult :=
  let st := { st with _timeout := false }
  if st.changed = false then ⟨st, none, false⟩
  else
    let json := jsonStringifyTop st._data
    let hash := md5 json
    if st._md5 = some hash then ⟨st, none, false⟩
    else
      let st₁ := if st.watch then { st with watchActive := false } else st
      let st₂ :=
        if writeOk then { st₁ with changed := false, _md5 := some hash } else st₁
      let st₃ := if st.watch then { st₂ with watchActive := true } else st₂
      ⟨st₃, if writeOk then none else some "IOError", true⟩

/-- Outcome of the backend `readFile` callback. -/
inductive ReadResult where
  | enoent
  | ioError (msg : String)
  | ok (content : String)
deriving Repr, DecidableEq

/-- Result of `_getFromDisk`: the new state, the `(err, result)` pair
handed to the callback (`result = none` models `undefined`), and the list
of `(oldData, newData)` payloads of emitted `change` events — the only
`emit` call in the source. -/
structure ReadOutcome where
  st : ConfigState
  err : Option String
  result : Option JsValue
  emitted : List (JsValue × JsValue)
deriving Repr

/-- `Config.prototype._getFromDisk(callback)`, parametrised by the outcome
of the backend `readFile`. `ENOENT` yields `(null, undefined)`; other read
errors propagate; undecodable content yields the corrupt-config error;
otherwise, when a last-known digest exists and differs from the digest of
the read content, the data is replaced and a `change` event is emitted
with the old and new data; in every successful-decode case the last-known
digest becomes the digest of the read content. -/
def getFromDisk (st : ConfigState) (read : ReadResult) : ReadOutcome :=
  match read with
  | .enoent => ⟨st, none, none, []⟩
  | .ioError msg => ⟨st, some msg, none, []⟩
  | .ok content =>
    match parseJSON content with
    | none => ⟨st, some "The config is corrupt / using invalid JSON syntax", none, []⟩
    | some newData =>
      let hash := md5 content
      match st._md5 with
      | some m =>
        if m = hash then ⟨{ st with _md5 := some hash }, none, some newData, []⟩
        else
          ⟨{ st with _data := newData, _md5 := some hash }, none, some newData,
           [(st._data, newData)]⟩
      | none => ⟨{ st with _md5 := some hash }, none, some newData, []⟩

/-- Result of `init`: the new state, the error handed to the completion
callback, and any events emitted during the read. -/
structure InitResult where
  st : ConfigState
  err : Option String
  emitted : List (JsValue × JsValue)
deriving Repr

/-- `Config.prototype.init(callback)`: one `_getFromDisk` pass; errors go
to the callback untouched; a defined result replaces `this._data`. -/
def init (st : ConfigState) (read : ReadResult) : InitResult :=
  let o := getFromDisk st read
  match o.err with
  | some e => ⟨o.st, some e, o.emitted⟩
  | none =>
    match o.result with
    | some d => ⟨{ o.st with _data := d }, none, o.emitted⟩
    | none => ⟨o.st, none, o.emitted⟩

/-- `Config.prototype._directoryChanged(event, filename)`, parametrised by
the outcome of the `readFile` the handler performs. Events whose filename
is not the configured one, or whose kind is not `change`, are ignored.
On a matching event the watch is closed, `_getFromDisk` runs, and the
watch is re-opened regardless of the read's outcome (the callback ignores
its error). -/
def directoryChanged (st : ConfigState) (event name : String) (read : ReadResult) :
    ConfigState × List (JsValue × JsValue) :=
  if name = st.filename ∧ event = "change" then
    let o := getFromDisk { st with watchActive := false } read
    ({ o.st with watchActive := true }, o.emitted)
  else (st, [])

/-- `Config.prototype.exit(callback)`: close the watch, clear any pending
debounce timer, then `_persistToDisk(callback)`. -/
def exit (st : ConfigState) (writeOk : Bool) : FlushResult :=
  persistToDisk { st with watchActive := false, _timeout := false } writeOk

/-! ## System model

A `Config` instance together with a record of the last disk content the
instance successfully wrote, or successfully read and decoded. The record
lets the on-disk/in-memory consistency invariant be stated; it is updated
exactly when the engine's own `writeFile` succeeds, and when a `readFile`
delivers content that decodes. -/

/-- Last disk content this instance interacted with. -/
inductive DiskMem where
  | noneYet
  | wrote (content : String)
  | readOk (content : String)
deriving Repr, DecidableEq

/-- A `Config` instance paired with its disk-interaction record. -/
structure Sys where
  cfg : ConfigState
  lastDisk : DiskMem
deriving Repr

/-- A `set` call. -/
def setSys (s : Sys) (key : Option String) (v : JsValue) : Sys :=
  { s with cfg := (set s.cfg key v).1 }

/-- A `delete` call. -/
def delSys (s : Sys) (key : Option String) : Sys :=
  { s with cfg := (del s.cfg key).1 }

/-- A `replace` call (also reached through assignment to the `data`
property). -/
def replSys (s : Sys) (d : JsValue) : Sys :=
  { s with cfg := (replace s.cfg d).1 }

/-- An `init` call with a given read outcome; content that decodes becomes
the last successfully read disk content. -/
def initSys (s : Sys) (read : ReadResult) : Sys :=
  { cfg := (init s.cfg read).st
    lastDisk :=
      match read with
      | .ok c => if (parseJSON c).isSome then .readOk c else s.lastDisk
      | _ => s.lastDisk }

/-- The debounce timer fires and `_persistToDisk` runs; a successful write
records the written bytes as the last disk content. -/
def flushSys (s : Sys) (writeOk : Bool) : Sys :=
  let r := persistToDisk s.cfg writeOk
  { cfg := r.st
    lastDisk :=
      if r.wrote ∧ writeOk then .wrote (jsonStringifyTop s.cfg._data)
      else s.lastDisk }

/-- A watch notification arrives and `_directoryChanged` runs. -/
def notifySys (s : Sys) (event name : String) (read : ReadResult) : Sys :=
  { cfg := (directoryChanged s.cfg event name read).1
    lastDisk :=
      if name = s.cfg.filename ∧ event = "change" then
        match read with
        | .ok c => if (parseJSON c).isSome then .readOk c else s.lastDisk
        | _ => s.lastDisk
      else s.lastDisk }

/-- An `exit` call. -/
def exitSys (s : Sys) (writeOk : Bool) : Sys :=
  let r := exit s.cfg writeOk
  { cfg := r.st
    lastDisk :=
      if r.wrote ∧ writeOk then .wrote (jsonStringifyTop s.cfg._data)
      else s.lastDisk }

/-- States reachable from a freshly constructed instance. The timer can
fire only while a timer is pending, and a watch notification can be
delivered only while the subscription is open; the environment (user calls,
other processes' writes, backend outcomes) is otherwise unconstrained. -/
inductive Reachable : Sys → Prop where
  | start (fn : String) (tmo : Nat) (w : Bool) :
      Reachable { cfg := mkConfig fn tmo w, lastDisk := .noneYet }
  | doSet (s : Sys) (key : Option String) (v : JsValue) :
      Reachable s → Reachable (setSys s key v)
  | doDel (s : Sys) (key : Option String) :
      Reachable s → Reachable (delSys s key)
  | doReplace (s : Sys) (d : JsValue) :
      Reachable s → Reachable (replSys s d)
  | doInit (s : Sys) (read : ReadResult) :
      Reachable s → Reachable (initSys s read)
  | doFlush (s : Sys) (writeOk : Bool) :
      Reachable s → s.cfg._timeout = true → Reachable (flushSys s writeOk)
  | doNotify (s : Sys) (event name : String) (read : ReadResult) :
      Reachable s → s.cfg.watchActive = true →
      Reachable (notifySys s event name read)
  | doExit (s : Sys) (writeOk : Bool) :
      Reachable s → Reachable (exitSys s writeOk)

/-! ## Debounce scheduler model

`_waitPersist` is `clearTimeout(this._timeout); this._timeout =
setTimeout(persist, this.timeout)`. Under a discrete clock, the scheduler
state is the optional firing time of the single pending timer plus a count
of timer firings (each firing is one `_persistToDisk` invocation). -/

/-- Debounce scheduler state: the pending timer's firing time, if one is
outstanding, and how many times a timer has fired. -/
structure DebounceState where
  pending : Option Nat
  fires : Nat
deriving Repr, DecidableEq

/-- A mutation at time `t`: any timer whose scheduled time has been
reached has already fired; then `_waitPersist` cancels whatever timer is
pending and arms a fresh one `delay` in the future. -/
def debounceStep (delay : Nat) (s : DebounceState) (t : Nat) : DebounceState :=
  let s₁ : DebounceState :=
    match s.pending with
    | some f =>
      if f ≤ t then { pending := none, fires := s.fires + 1 }
      else { s with pending := none }
    | none => s
  { s₁ with pending := some (t + delay) }

/-- Run the scheduler over mutations at the given (ascending) times. -/
def debounceRun (delay : Nat) (ts : List Nat) (s : DebounceState) : DebounceState :=
  ts.foldl (debounceStep delay) s

/-- Total number of flushes once time runs out: firings during the run,
plus the still-pending timer, which fires with nothing left to cancel it. -/
def debounceFlushes (delay : Nat) (ts : List Nat) : Nat :=
  let s := debounceRun delay ts ⟨none, 0⟩
  s.fires + (match s.pending with | some _ => 1 | none => 0)

/-! ## Derived notions used by the statements -/

/-- Content of the last disk interaction, if any. -/
def diskContent : DiskMem → Option String
  | .noneYet => none
  | .wrote c => some c
  | .readOk c => some c

/-- Consistency between memory and disk: the last-known digest is the
digest of the last disk content this instance wrote or read (and is unset
while no such content exists); and while the dirty flag is clear and the
last interaction was a write, the serialization of the in-memory data is
byte-equal to the written content. -/
def SysInv (s : Sys) : Prop :=
  (∀ c, diskContent s.lastDisk = some c → s.cfg._md5 = some (md5 c)) ∧
  (diskContent s.lastDisk = none → s.cfg._md5 = none) ∧
  (s.cfg.changed = false → ∀ c, s.lastDisk = .wrote c →
    jsonStringifyTop s.cfg._data = c)

/-- The state of a `Config` after `exit` has closed the watch and cleared
the pending timer, just before the final `_persistToDisk`. -/
def closeWatch (s : Sys) : Sys :=
  { s with cfg := { s.cfg with watchActive := false, _timeout := false } }

/-- A freshly constructed instance with default-style options. -/
def cfg0 : ConfigState := mkConfig "options.json" 0 true

/-- A fresh instance with one pending mutation (`set("a", 1)`). -/
def dirty0 : ConfigState := (set cfg0 (some "a") (.num 1)).1

/-- A running instance holding `\x7b"a":1\x7d` with a last-known digest. -/
def cfgA : ConfigState :=
  { cfg0 with _data := .obj [("a", .num 1)], _md5 := some "h" }

/-- The system state reached by constructing an instance and running
`init` against a file whose JSON carries insignificant whitespace. -/
def c5Bad : Sys :=
  initSys { cfg := cfg0, lastDisk := .noneYet } (.ok "\x7b \"a\": 1 \x7d")

/-- The system state reached by constructing an instance and calling
`set("a", 1)`, leaving a dirty store behind. -/
def c3s : Sys := setSys { cfg := cfg0, lastDisk := .noneYet } (some "a") (.num 1)

/-! ## Helper lemmas -/

theorem updateOwn_idem (fs : List (String × JsValue)) (k : String) (v : JsValue) :
    updateOwn (updateOwn fs k v) k v = updateOwn fs k v := by
  induction fs with
  | nil => simp [updateOwn]
  | cons p fs ih =>
    by_cases h : p.1 = k
    · simp [updateOwn, h]
    · simp [updateOwn, h, ih]

theorem lookupOwn_updateOwn (fs : List (String × JsValue)) (k : String) (v : JsValue) :
    lookupOwn (updateOwn fs k v) k = some v := by
  induction fs with
  | nil => simp [updateOwn, lookupOwn]
  | cons p fs ih =>
    obtain ⟨k', v'⟩ := p
    by_cases h : k' = k <;> simp [updateOwn, lookupOwn, h, ih]

theorem setProp_idem (o : JsValue) (k : String) (v : JsValue) :
    (o.setProp k v).setProp k v = o.setProp k v := by
  cases o with
  | obj fs =>
    by_cases hp : k = "__proto__" ∧ (lookupOwn fs k).isNone
    · obtain ⟨hk, hn⟩ := hp
      subst hk
      simp [JsValue.setProp, hn]
    · simp only [JsValue.setProp, if_neg hp]
      have hs : lookupOwn (updateOwn fs k v) k = some v := lookupOwn_updateOwn fs k v
      simp [JsValue.setProp, hs, updateOwn_idem]
  | undefined => rfl
  | null => rfl
  | bool b => rfl
  | num n => rfl
  | str s => rfl
  | arr xs => rfl
  | fn f => rfl
  | protoObj => rfl

theorem persistToDisk_not_changed (st : ConfigState) (w : Bool) (h : st.changed = false) :
    persistToDisk st w = ⟨{ st with _timeout := false }, none, false⟩ := by
  unfold persistToDisk; simp [h]

theorem persistToDisk_skip (st : ConfigState) (w : Bool) (h : st.changed = true)
    (hm : st._md5 = some (md5 (jsonStringifyTop st._data))) :
    persistToDisk st w = ⟨{ st with _timeout := false }, none, false⟩ := by
  unfold persistToDisk; simp [h, hm]

theorem persistToDisk_write_ok (st : ConfigState) (h : st.changed = true)
    (hm : st._md5 ≠ some (md5 (jsonStringifyTop st._data))) :
    persistToDisk st true =
      ⟨{ st with
          _timeout := false, changed := false, _md5 := some (md5 (jsonStringifyTop st._data)),
          watchActive := st.watch || st.watchActive }, none, true⟩ := by
  unfold persistToDisk
  by_cases hw : st.watch <;> simp [h, hm, hw]

theorem persistToDisk_write_fail (st : ConfigState) (h : st.changed = true)
    (hm : st._md5 ≠ some (md5 (jsonStringifyTop st._data))) :
    persistToDisk st false =
      ⟨{ st with _timeout := false, watchActive := st.watch || st.watchActive },
       some "IOError", true⟩ := by
  unfold persistToDisk
  by_cases hw : st.watch <;> simp [h, hm, hw]

theorem sysInv_congr (s t : Sys) (hld : t.lastDisk = s.lastDisk)
    (hmd : t.cfg._md5 = s.cfg._md5) (hch : t.cfg.changed = s.cfg.changed)
    (hda : t.cfg._data = s.cfg._data) (ih : SysInv s) : SysInv t := by
  obtain ⟨h1, h0, h2⟩ := ih
  refine ⟨?_, ?_, ?_⟩
  · intro c hcc
    rw [hld] at hcc
    rw [hmd]
    exact h1 c hcc
  · intro hcc
    rw [hld] at hcc
    rw [hmd]
    exact h0 hcc
  · intro hcf c hl
    rw [hld] at hl
    rw [hch] at hcf
    rw [hda]
    exact h2 hcf c hl

theorem sysInv_dirty (s t : Sys) (hld : t.lastDisk = s.lastDisk)
    (hmd : t.cfg._md5 = s.cfg._md5) (hch : t.cfg.changed = true)
    (ih : SysInv s) : SysInv t := by
  obtain ⟨h1, h0, _⟩ := ih
  refine ⟨?_, ?_, ?_⟩
  · intro c hcc
    rw [hld] at hcc
    rw [hmd]
    exact h1 c hcc
  · intro hcc
    rw [hld] at hcc
    rw [hmd]
    exact h0 hcc
  · intro hcf
    rw [hch] at hcf
    simp at hcf

theorem sysInv_start (fn : String) (tmo : Nat) (w : Bool) :
    SysInv { cfg := mkConfig fn tmo w, lastDisk := .noneYet } := by
  refine ⟨?_, ?_, ?_⟩ <;> simp [mkConfig, diskContent]

theorem sysInv_set (s : Sys) (key : Option String) (v : JsValue) (ih : SysInv s) :
    SysInv (setSys s key v) := by
  cases key with
  | none => exact sysInv_congr s _ rfl rfl rfl rfl ih
  | some k => exact sysInv_dirty s _ rfl rfl rfl ih

theorem sysInv_del (s : Sys) (key : Option String) (ih : SysInv s) :
    SysInv (delSys s key) := by
  cases key with
  | none => exact sysInv_congr s _ rfl rfl rfl rfl ih
  | some k => exact sysInv_dirty s _ rfl rfl rfl ih

theorem sysInv_replace (s : Sys) (d : JsValue) (ih : SysInv s) :
    SysInv (replSys s d) := by
  by_cases hu : d.isUndefined = true
  · exact sysInv_congr s _ rfl (by simp [replSys, replace, hu])
      (by simp [replSys, replace, hu]) (by simp [replSys, replace, hu]) ih
  · exact sysInv_dirty s _ rfl (by simp [replSys, replace, hu])
      (by simp [replSys, replace, hu]) ih

theorem sysInv_flush (s : Sys) (w : Bool) (ih : SysInv s) : SysInv (flushSys s w) := by
  obtain ⟨h1, h0, h2⟩ := ih
  by_cases hc : s.cfg.changed = false
  · unfold flushSys
    rw [persistToDisk_not_changed s.cfg w hc]
    exact ⟨by simpa using h1, by simpa using h0, fun _ => by simpa using h2 hc⟩
  · replace hc : s.cfg.changed = true := by simpa using hc
    by_cases hm : s.cfg._md5 = some (md5 (jsonStringifyTop s.cfg._data))
    · unfold flushSys
      rw [persistToDisk_skip s.cfg w hc hm]
      exact ⟨by simpa using h1, by simpa using h0, fun hcf => by simp [hc] at hcf⟩
    · cases w with
      | true =>
        unfold flushSys
        rw [persistToDisk_write_ok s.cfg hc hm]
        refine ⟨?_, ?_, ?_⟩
        · intro c hcc
          simp [diskContent] at hcc
          simp [hcc]
        · intro hcc
          simp [diskContent] at hcc
        · intro _ c hl
          simp at hl
          simp [hl]
      | false =>
        unfold flushSys
        rw [persistToDisk_write_fail s.cfg hc hm]
        exact ⟨by simpa using h1, by simpa using h0, fun hcf => by simp [hc] at hcf⟩

theorem sysInv_init (s : Sys) (read : ReadResult) (ih : SysInv s) :
    SysInv (initSys s read) := by
  cases read with
  | enoent => exact sysInv_congr s _ rfl rfl rfl rfl ih
  | ioError m => exact sysInv_congr s _ rfl rfl rfl rfl ih
  | ok content =>
    cases hp : parseJSON content with
    | none =>
      exact sysInv_congr s _ (by simp [initSys, hp])
        (by simp [initSys, init, getFromDisk, hp])
        (by simp [initSys, init, getFromDisk, hp])
        (by simp [initSys, init, getFromDisk, hp]) ih
    | some d =>
      refine ⟨?_, ?_, ?_⟩
      · intro c hcc
        have h5 : (initSys s (.ok content)).lastDisk = .readOk content := by
          simp [initSys, hp]
        rw [h5] at hcc
        simp [diskContent] at hcc
        subst hcc
        simp [initSys, init, getFromDisk, hp]
        cases hm : s.cfg._md5 with
        | none => simp
        | some m => by_cases he : m = md5 content <;> simp [he]
      · intro hcc
        simp [initSys, hp, diskContent] at hcc
      · intro _ c hl
        simp [initSys, hp] at hl

theorem sysInv_notify (s : Sys) (event name : String) (read : ReadResult)
    (ih : SysInv s) : SysInv (notifySys s event name read) := by
  by_cases hev : name = s.cfg.filename ∧ event = "change"
  · cases read with
    | enoent =>
      exact sysInv_congr s _ (by simp [notifySys, hev])
        (by simp [notifySys, directoryChanged, getFromDisk, hev])
        (by simp [notifySys, directoryChanged, getFromDisk, hev])
        (by simp [notifySys, directoryChanged, getFromDisk, hev]) ih
    | ioError m =>
      exact sysInv_congr s _ (by simp [notifySys, hev])
        (by simp [notifySys, directoryChanged, getFromDisk, hev])
        (by simp [notifySys, directoryChanged, getFromDisk, hev])
        (by simp [notifySys, directoryChanged, getFromDisk, hev]) ih
    | ok content =>
      cases hp : parseJSON content with
      | none =>
        exact sysInv_congr s _ (by simp [notifySys, hev, hp])
          (by simp [notifySys, directoryChanged, getFromDisk, hev, hp])
          (by simp [notifySys, directoryChanged, getFromDisk, hev, hp])
          (by simp [notifySys, directoryChanged, getFromDisk, hev, hp]) ih
      | some d =>
        refine ⟨?_, ?_, ?_⟩
        · intro c hcc
          have h5 : (notifySys s event name (.ok content)).lastDisk = .readOk content := by
            simp [notifySys, hev, hp]
          rw [h5] at hcc
          simp [diskContent] at hcc
          subst hcc
          simp [notifySys, directoryChanged, getFromDisk, hev, hp]
          cases hm : s.cfg._md5 with
          | none => simp
          | some m => by_cases he : m = md5 content <;> simp [he]
        · intro hcc
          simp [notifySys, hev, hp, diskContent] at hcc
        · intro _ c hl
          simp [notifySys, hev, hp] at hl
  · exact sysInv_congr s _ (by simp [notifySys, hev])
      (by simp [notifySys, directoryChanged, hev])
      (by simp [notifySys, directoryChanged, hev])
      (by simp [notifySys, directoryChanged, hev]) ih

theorem exitSys_eq_flush_closeWatch (s : Sys) (w : Bool) :
    exitSys s w = flushSys (closeWatch s) w := rfl

theorem sysInv_exit (s : Sys) (w : Bool) (ih : SysInv s) : SysInv (exitSys s w) := by
  rw [exitSys_eq_flush_closeWatch]
  exact sysInv_flush (closeWatch s) w (sysInv_congr s _ rfl rfl rfl rfl ih)

theorem reachable_inv (s : Sys) (h : Reachable s) : SysInv s := by
  induction h with
  | start fn tmo w => exact sysInv_start fn tmo w
  | doSet s key v _ ih => exact sysInv_set s key v ih
  | doDel s key _ ih => exact sysInv_del s key ih
  | doReplace s d _ ih => exact sysInv_replace s d ih
  | doInit s read _ ih => exact sysInv_init s read ih
  | doFlush s w _ _ ih => exact sysInv_flush s w ih
  | doNotify s ev nm read _ _ ih => exact sysInv_notify s ev nm read ih
  | doExit s w _ ih => exact sysInv_exit s w ih

theorem debounceRun_coalesce (delay k prev : Nat) (rest : List Nat)
    (h : List.Chain (fun a b => a ≤ b ∧ b < a + delay) prev rest) :
    ∃ last, debounceRun delay rest ⟨some (prev + delay), k⟩ =
      ⟨some (last + delay), k⟩ := by
  induction rest generalizing prev with
  | nil => exact ⟨prev, rfl⟩
  | cons t ts ih =>
    cases h with
    | cons hpt hch =>
      have hlt : ¬ (prev + delay ≤ t) := by omega
      have e1 : debounceStep delay ⟨some (prev + delay), k⟩ t =
          ⟨some (t + delay), k⟩ := by
        simp [debounceStep, hlt]
      have e2 : debounceRun delay (t :: ts) ⟨some (prev + delay), k⟩ =
          debounceRun delay ts ⟨some (t + delay), k⟩ := by
        simp [debounceRun, List.foldl, e1]
      rw [e2]
      exact ih t hch

/-! ## Claims -/

/-- C2. For every flush: if the dirty flag is false, the flush completes
with no disk I/O; if the digest of the serialized data equals the
last-known digest, no write is issued; consequently, calling `set(k, v)`
twice with the same `v`, flushing (successfully) after each call, from a
state whose last-known digest differs from the new serialization, produces
exactly one disk write overall. -/
theorem claim2_flush_idempotent (st : ConfigState) (w : Bool) (k : String) (v : JsValue) :
    (st.changed = false →
      (persistToDisk st w).wrote = false ∧ (persistToDisk st w).err = none) ∧
    (st._md5 = some (md5 (jsonStringifyTop st._data)) →
      (persistToDisk st w).wrote = false) ∧
    (st._md5 ≠ some (md5 (jsonStringifyTop ((set st (some k) v).1._data))) →
      (persistToDisk (set st (some k) v).1 true).wrote = true ∧
      (persistToDisk (set (persistToDisk (set st (some k) v).1 true).st (some k) v).1
        true).wrote = false) := by
  refine ⟨?_, ?_, ?_⟩
  · intro h; unfold persistToDisk; simp [h]
  · intro h; unfold persistToDisk
    by_cases hc : st.changed = false <;> simp [hc, h]
  · intro h
    have h' : st._md5 ≠ some (md5 (jsonStringifyTop (st._data.setProp k v))) := by
      simpa [set] using h
    unfold set persistToDisk
    by_cases hw : st.watch <;> simp [hw, h', setProp_idem]

/-- C2 witness: on a fresh store, `set("a",1)`, flush, `set("a",1)`, flush
attempts exactly one backend write; the second flush is suppressed by
fingerprint equality. -/
theorem claim2_witness :
    (persistToDisk (set cfg0 (some "a") (.num 1)).1 true).wrote = true ∧
    (persistToDisk (set (persistToDisk (set cfg0 (some "a") (.num 1)).1 true).st
      (some "a") (.num 1)).1 true).wrote = false :=
  (claim2_flush_idempotent cfg0 true "a" (.num 1)).2.2 (by decide)

/-- C3. The claim states that after `exit` the watch subscription is
permanently closed and never reactivated. The code violates this: when the
final `_persistToDisk` issues a real write (store dirty, digest differs)
with the `watch` option set, the write callback calls `_watchDirectory()`
and re-opens the subscription, so reconciliation keeps happening after
`exit` (here an external write of `\x7b"b":2\x7d` is adopted and a change
event emitted). The claim's other half — the pending debounce timer is
cancelled before it can fire — does hold (`_timeout` is cleared). -/
theorem claim3_exit_reopens_watch :
    (exitSys c3s true).cfg.watchActive = true ∧
    (exitSys c3s true).cfg._timeout = false ∧
    (directoryChanged (exitSys c3s true).cfg "change" "options.json"
        (.ok "\x7b\"b\":2\x7d")).2 =
      [(.obj [("a", .num 1)], .obj [("b", .num 2)])] ∧
    (directoryChanged (exitSys c3s true).cfg "change" "options.json"
        (.ok "\x7b\"b\":2\x7d")).1._data = .obj [("b", .num 2)] ∧
    Reachable (notifySys (exitSys c3s true) "change" "options.json"
        (.ok "\x7b\"b\":2\x7d")) := by
  refine ⟨rfl, rfl, rfl, rfl, ?_⟩
  exact Reachable.doNotify _ _ _ _
    (Reachable.doExit _ _ (Reachable.doSet _ _ _ (Reachable.start _ _ _))) rfl

/-- C4 counterexample: the claim asserts that a decode failure during
reconciliation emits an error notification. It does not: on corrupt
content (`"\x7b"` decodes to nothing) the handler's callback discards the
error and emits nothing at all — the emitted-event list is empty — while
the store stays intact and the watch is re-opened. -/
theorem claim4_counterexample :
    parseJSON "\x7b" = none ∧
    (directoryChanged cfgA "change" "options.json" (.ok "\x7b")).2 = [] ∧
    (directoryChanged cfgA "change" "options.json" (.ok "\x7b")).1._data =
      .obj [("a", .num 1)] ∧
    (directoryChanged cfgA "change" "options.json" (.ok "\x7b")).1.watchActive = true :=
  ⟨rfl, rfl, rfl, rfl⟩

/-- C4 amended. If the file on disk fails to decode: during `init`, the
corrupt-configuration error is reported to the completion callback and the
in-memory store is left untouched; during reconciliation after `init`, the
error is silently discarded — no notification of any kind is emitted — the
previous in-memory store stays intact, and the watch loop continues so
future reconciliations still happen. -/
theorem claim4_corrupt_handling (st : ConfigState) (content : String)
    (hp : parseJSON content = none) :
    ((init st (.ok content)).err =
        some "The config is corrupt / using invalid JSON syntax" ∧
      (init st (.ok content)).st = st ∧
      (init st (.ok content)).emitted = []) ∧
    ((directoryChanged st "change" st.filename (.ok content)).1 =
        { st with watchActive := true } ∧
      (directoryChanged st "change" st.filename (.ok content)).2 = []) := by
  unfold init directoryChanged getFromDisk
  simp [hp]

/-- C4 witness: `init` against the corrupt content `"\x7b"` reports the
corrupt-config error and leaves the store untouched; the reconciliation
pass stays silent and keeps watching. -/
theorem claim4_witness :
    ((init cfgA (.ok "\x7b")).err =
        some "The config is corrupt / using invalid JSON syntax" ∧
      (init cfgA (.ok "\x7b")).st = cfgA ∧
      (init cfgA (.ok "\x7b")).emitted = []) ∧
    ((directoryChanged cfgA "change" cfgA.filename (.ok "\x7b")).1 =
        { cfgA with watchActive := true } ∧
      (directoryChanged cfgA "change" cfgA.filename (.ok "\x7b")).2 = []) :=
  claim4_corrupt_handling cfgA "\x7b" rfl

/-- C5 counterexample: the claimed invariant — dirty flag false implies the
serialization of the in-memory data is byte-equal to the last
written/read disk content — fails on the code. Running `init` against a
file containing `\x7b "a": 1 \x7d` (insignificant whitespace) reaches a
state with the dirty flag clear whose last read content differs byte-wise
from the serialization `\x7b"a":1\x7d` of the in-memory data: the digest
is taken over the raw read bytes, never over a re-serialization. -/
theorem claim5_counterexample :
    Reachable c5Bad ∧
    c5Bad.cfg.changed = false ∧
    c5Bad.lastDisk = .readOk "\x7b \"a\": 1 \x7d" ∧
    jsonStringifyTop c5Bad.cfg._data ≠ "\x7b \"a\": 1 \x7d" := by
  refine ⟨Reachable.doInit _ _ (Reachable.start _ _ _), rfl, rfl, ?_⟩
  decide

/-- C5 amended. Over every reachable state: the last-known digest is
exactly the digest of the last successfully written or read-and-decoded
disk content, and is unset while no such content exists; and whenever the
dirty flag is false and that last interaction was a write, the
serialization of the in-memory data is byte-equal to the written content.
After reads only the digest is retained: byte-equality of the
serialization need not hold. -/
theorem claim5_invariant_amended (s : Sys) (hr : Reachable s) :
    (∀ c, diskContent s.lastDisk = some c → s.cfg._md5 = some (md5 c)) ∧
    (diskContent s.lastDisk = none → s.cfg._md5 = none) ∧
    (s.cfg.changed = false → ∀ c, s.lastDisk = .wrote c →
      jsonStringifyTop s.cfg._data = c) :=
  reachable_inv s hr

/-- C5 witness: the amended invariant instantiated at the state reached by
`set("a", 1)` followed by a successful timer flush — the last interaction
is a write, the dirty flag is clear, and all three clauses apply. -/
theorem claim5_witness :
    (∀ c, diskContent (flushSys c3s true).lastDisk = some c →
      (flushSys c3s true).cfg._md5 = some (md5 c)) ∧
    (diskContent (flushSys c3s true).lastDisk = none →
      (flushSys c3s true).cfg._md5 = none) ∧
    ((flushSys c3s true).cfg.changed = false →
      ∀ c, (flushSys c3s true).lastDisk = .wrote c →
        jsonStringifyTop (flushSys c3s true).cfg._data = c) :=
  claim5_invariant_amended (flushSys c3s true)
    (Reachable.doFlush c3s true
      (Reachable.doSet _ _ _ (Reachable.start "options.json" 0 true)) rfl)

/-- C6. At most one debounce timer is outstanding per store instance:
arming cancels and replaces any existing timer (the scheduler always
leaves exactly the freshly armed timer pending), so mutations at times
`t :: ts`, each within less than the debounce delay of its predecessor,
produce exactly one flush. -/
theorem claim6_debounce_coalesce (delay t t' : Nat) (ts : List Nat) (s : DebounceState)
    (h : List.Chain (fun a b => a ≤ b ∧ b < a + delay) t ts) :
    (debounceStep delay s t').pending = some (t' + delay) ∧
    debounceFlushes delay (t :: ts) = 1 := by
  constructor
  · unfold debounceStep
    cases s.pending with
    | none => simp
    | some f => by_cases hf : f ≤ t' <;> simp [hf]
  · have e1 : debounceStep delay ⟨none, 0⟩ t = ⟨some (t + delay), 0⟩ := by
      simp [debounceStep]
    have e2 : debounceRun delay (t :: ts) ⟨none, 0⟩ =
        debounceRun delay ts ⟨some (t + delay), 0⟩ := by
      simp [debounceRun, List.foldl, e1]
    obtain ⟨last, e3⟩ := debounceRun_coalesce delay 0 t ts h
    unfold debounceFlushes
    rw [e2, e3]
    rfl

/-- C6 witness: re-arming at time 5 replaces a timer pending for time 4,
and three mutations at times 0, 3, 6 under a delay of 10 produce exactly
one flush. -/
theorem claim6_witness :
    (debounceStep 10 ⟨some 4, 2⟩ 5).pending = some 15 ∧
    debounceFlushes 10 [0, 3, 6] = 1 :=
  claim6_debounce_coalesce 10 0 5 [3, 6] ⟨some 4, 2⟩
    (.cons (by omega) (.cons (by omega) .nil))

/-- C7. For every flush whose backend write fails: the dirty flag remains
set, the last-known digest is not updated, the watch subscription is
resumed (when the watch option is set), the error is reported to the
flush's caller, the in-memory store is unchanged, and a later flush
retries the write. -/
theorem claim7_write_failure (st : ConfigState)
    (h1 : st.changed = true)
    (h2 : st._md5 ≠ some (md5 (jsonStringifyTop st._data))) :
    (persistToDisk st false).st.changed = true ∧
    (persistToDisk st false).st._md5 = st._md5 ∧
    (persistToDisk st false).st._data = st._data ∧
    (persistToDisk st false).err = some "IOError" ∧
    (st.watch = true → (persistToDisk st false).st.watchActive = true) ∧
    (persistToDisk (persistToDisk st false).st true).wrote = true := by
  unfold persistToDisk
  by_cases hw : st.watch <;> simp [h1, h2, hw]

/-- C7 witness: a failed write on a fresh dirty store leaves it dirty with
no digest, reports `IOError`, keeps the data, resumes the watch, and the
next flush attempts the write again. -/
theorem claim7_witness :
    (persistToDisk dirty0 false).st.changed = true ∧
    (persistToDisk dirty0 false).st._md5 = dirty0._md5 ∧
    (persistToDisk dirty0 false).st._data = dirty0._data ∧
    (persistToDisk dirty0 false).err = some "IOError" ∧
    (dirty0.watch = true → (persistToDisk dirty0 false).st.watchActive = true) ∧
    (persistToDisk (persistToDisk dirty0 false).st true).wrote = true :=
  claim7_write_failure dirty0 rfl (by decide)

/-- C8. When `readFile` reports `ENOENT`: `init` completes successfully
with the state (hence the initially empty store) untouched, and a
reconciliation pass triggered by a watch notification treats it as a
no-op, leaving the store, dirty flag, and last-known digest unchanged and
resuming the subscription. -/
theorem claim8_notfound (st : ConfigState) (fn : String) (tmo : Nat) (w : Bool) :
    init st .enoent = ⟨st, none, []⟩ ∧
    (init (mkConfig fn tmo w) .enoent).st._data = .obj [] ∧
    ((directoryChanged st "change" st.filename .enoent).1._data = st._data ∧
      (directoryChanged st "change" st.filename .enoent).1._md5 = st._md5 ∧
      (directoryChanged st "change" st.filename .enoent).1.changed = st.changed ∧
      (directoryChanged st "change" st.filename .enoent).1.watchActive = true ∧
      (directoryChanged st "change" st.filename .enoent).2 = []) := by
  refine ⟨rfl, rfl, ?_⟩
  unfold directoryChanged getFromDisk
  simp

/-- C10 counterexample: the claim's first half — a key explicitly set to
the value `undefined` is treated as present, so `get` returns `undefined`
rather than the default — fails at the key `__proto__`: the assignment
`this._data["__proto__"] = undefined` is intercepted by the inherited
`Object.prototype` accessor setter and creates no own property, so
`hasOwnProperty` stays false and `get("__proto__", 7)` returns the
default 7. -/
theorem claim10_counterexample :
    (set cfg0 (some "__proto__") .undefined).1._data.hasOwn "__proto__" = false ∧
    get (set cfg0 (some "__proto__") .undefined).1 "__proto__" (.num 7) = .num 7 :=
  ⟨rfl, rfl⟩

/-- C10 amended. Key presence in `get` is decided by an own-property
check: for every key other than `__proto__`, a key explicitly set to the
value `undefined` is treated as present, so `get(key, default)` returns
`undefined` rather than the default; for `__proto__` (with no own
`__proto__` data property shadowing the accessor) the assignment is
intercepted by the inherited accessor, creates no own property, and `get`
returns the default; keys inherited from the object prototype —
`toString`, which a plain property read would resolve to the inherited
function — are treated as absent and yield the default. -/
theorem claim10_own_property (st : ConfigState) (fs : List (String × JsValue))
    (k : String) (d : JsValue) (hd : st._data = .obj fs)
    (hk : k ≠ "__proto__") :
    get (set st (some k) .undefined).1 k d = .undefined ∧
    (st._data.hasOwn "__proto__" = false →
      get (set st (some "__proto__") .undefined).1 "__proto__" d = d) ∧
    (st._data.hasOwn "toString" = false →
      st._data.getProp "toString" = .fn "toString" ∧ get st "toString" d = d) := by
  refine ⟨?_, ?_, ?_⟩
  · simp [get, set, hd, JsValue.setProp, hk, JsValue.hasOwn, JsValue.getProp,
      lookupOwn_updateOwn]
  · intro h
    have hl : lookupOwn fs "__proto__" = none := by
      rw [hd] at h
      simp [JsValue.hasOwn] at h
      cases hl' : lookupOwn fs "__proto__" with
      | some v => rw [hl'] at h; simp at h
      | none => rfl
    simp [get, set, hd, JsValue.setProp, hl, JsValue.hasOwn]
  · intro h
    refine ⟨?_, by simp [get, h]⟩
    rw [hd] at h ⊢
    simp [JsValue.hasOwn] at h
    cases hl : lookupOwn fs "toString" with
    | some v => rw [hl] at h; simp at h
    | none => simp [JsValue.getProp, hl, protoLookup, protoFns]

/-- C10 witness: after `set("a", undefined)` the key is present and `get`
returns `undefined` instead of the default 7; after
`set("__proto__", undefined)` the key stays absent and `get` returns the
default 7; `get("toString", 7)` on the fresh store yields the default. -/
theorem claim10_witness :
    get (set cfg0 (some "a") .undefined).1 "a" (.num 7) = .undefined ∧
    get (set cfg0 (some "__proto__") .undefined).1 "__proto__" (.num 7) = .num 7 ∧
    get cfg0 "toString" (.num 7) = .num 7 := by
  have h := claim10_own_property cfg0 [] "a" (.num 7) rfl (by decide)
  exact ⟨h.1, h.2.1 rfl, (h.2.2 rfl).2⟩

end NodeConfig
